import Mathlib

/-!
# The c10 operator wrapper of caffe2 (`caffe2/core/operator_c10wrapper.h`)

A shallow embedding of `C10OperatorWrapper` and `ParameterHelper`.

* A template specialization `C10OperatorWrapper<OpSchemaDef, Context, use_array_input,
  ParameterDefTuple>` is a value of `Specialization`.
* C++ exceptions are explicit: a function that can throw returns `Except (Exn E) _`.
* A member function that can change the wrapper, or that talks to the dispatcher, returns a
  `Run`: the wrapper afterwards, the state of the collaborators afterwards, the collaborator
  calls it made (in order) and its result.  The record of collaborator calls is the only
  addition to what the C++ computes.
* Tensors are values of an arbitrary type `T` (a tensor handle with whatever the dispatcher can
  see of it), kernels are values of an arbitrary type `K`.
* `ArgumentHelper` and the slot accessors of the base class `Operator<Context>` are declared
  elsewhere in the repository; they are modelled from the specification and marked so.

The definitions come first, the theorems after them.
-/

namespace caffe2

/-! ## Values -/

/-- Exceptions.  `enforce` and `outOfRange` are raised by the caffe2 helpers the wrapper uses,
`thrown e` is anything else a collaborator throws. -/
inductive Exn (E : Type) where
  | enforce (what : String)
  | outOfRange (idx : Nat)
  | thrown (e : E)
  deriving DecidableEq

/-- The C++ type of a parameter (`ParameterDef::type`). -/
inductive ArgType where
  | float
  | int
  | bool
  | string
  deriving DecidableEq

/-- A typed argument value.  A `float` is carried as its IEEE-754 binary32 bit pattern: the
wrapper stores and forwards parameter values and never computes with them. -/
inductive ArgValue where
  | float (bits : Nat)
  | int (i : Int)
  | bool (b : Bool)
  | string (s : String)
  deriving DecidableEq

/-- The type a value has. -/
def ArgValue.type : ArgValue → ArgType
  | .float _ => .float
  | .int _ => .int
  | .bool _ => .bool
  | .string _ => .string

/-- A boxed value on the call stack (`c10::IValue`): a tensor, a tensor list, or a parameter
value. -/
inductive IValue (T : Type) where
  | tensor (t : T)
  | tensorList (ts : List T)
  | value (v : ArgValue)
  deriving DecidableEq

/-- The call stack (`torch::jit::Stack`), first pushed element first. -/
abbrev Stack (T : Type) := List (IValue T)

/-! ## Operator definitions and argument parsing -/

/-- One named argument of an operator definition. -/
structure Argument where
  name : String
  value : ArgValue
  deriving DecidableEq

/-- The declarative description of an operator instance: name, type and argument list. -/
structure OperatorDef where
  name : String
  type : String
  arg : List Argument
  deriving DecidableEq

/-- Modelled from the spec: `ArgumentHelper` (declared in `caffe2/utils/proto_utils.h`, not part
of this file) gives access by name to the arguments of an operator definition. -/
structure ArgumentHelper where
  args : List Argument
  deriving DecidableEq

/-- Modelled from the spec: the constructor `ArgumentHelper(operator_def)`. -/
def ArgumentHelper.ofDef (operator_def : OperatorDef) : ArgumentHelper :=
  ⟨operator_def.arg⟩

/-- Modelled from the spec: the argument stored under `name`, if there is one. -/
def ArgumentHelper.find (helper : ArgumentHelper) (name : String) : Option Argument :=
  helper.args.find? (fun a => a.name == name)

/-- Modelled from the spec: `ArgumentHelper::GetSingleArgument<T>(name, default_value)`
(`getSingleArgument(name, default) -> typed value`): the default when the definition has no
argument of that name, the argument's value when it has one of type `T`, and a configuration
error when the argument is there with another type. -/
def ArgumentHelper.GetSingleArgument {E : Type} (helper : ArgumentHelper) (T : ArgType)
    (name : String) (default_value : ArgValue) : Except (Exn E) ArgValue :=
  match helper.find name with
  | none => .ok default_value
  | some a => if a.value.type = T then .ok a.value else .error (.enforce name)

/-- The members `ParameterHelper` reads from its template argument `ParameterDef`: `type`,
`name()` and `default_value()`. -/
structure ParameterDef where
  type : ArgType
  name : String
  default_value : ArgValue
  deriving DecidableEq

/-- An element of `ParameterDefTuple`: the wrapper uses nothing of it but its static
`parse(const ArgumentHelper&)`. -/
structure ParameterClass (E : Type) where
  parse : ArgumentHelper → Except (Exn E) ArgValue

/-- `ParameterHelper<ParameterDef>::parse`. -/
def ParameterHelper.parse {E : Type} (pd : ParameterDef) (helper : ArgumentHelper) :
    Except (Exn E) ArgValue :=
  helper.GetSingleArgument pd.type pd.name pd.default_value

/-- `ParameterHelper<ParameterDef>` as an element of `ParameterDefTuple`. -/
def ParameterHelper {E : Type} (pd : ParameterDef) : ParameterClass E :=
  ⟨ParameterHelper.parse pd⟩

/-- Modelled from the spec: the `parse` of a parameter declared with no default.  The header
itself provides `ParameterHelper` only, whose `ParameterDef` always has a default; any other
class with a static `parse` may stand in `ParameterDefTuple`.  By the spec a parameter is
extracted from the operator definition by name and type, and with no default a missing or
mistyped argument is a configuration error. -/
def RequiredParameter.parse {E : Type} (ty : ArgType) (name : String)
    (helper : ArgumentHelper) : Except (Exn E) ArgValue :=
  match helper.find name with
  | none => .error (.enforce name)
  | some a => if a.value.type = ty then .ok a.value else .error (.enforce name)

/-- Modelled from the spec: a parameter declared with no default, as an element of
`ParameterDefTuple`. -/
def RequiredParameter {E : Type} (ty : ArgType) (name : String) : ParameterClass E :=
  ⟨RequiredParameter.parse ty name⟩

/-! ## Template specializations and their constants -/

/-- The two constants of `c10::OpSchema<OpSchemaDef>::signature` the wrapper reads. -/
structure Schema where
  num_args : Nat
  num_outputs : Nat
  deriving DecidableEq

/-- The template arguments of `C10OperatorWrapper` (all but `Context`). -/
structure Specialization (E : Type) where
  schema : Schema
  use_array_input : Bool
  ParameterDefTuple : List (ParameterClass E)

/-- Subtraction of `size_t` values (64 bit, wrapping). -/
def size_t_sub (x y : Nat) : Nat :=
  (x % 2 ^ 64 + (2 ^ 64 - y % 2 ^ 64)) % 2 ^ 64

/-- `num_parameters()`. -/
def num_parameters {E : Type} (spec : Specialization E) : Nat :=
  spec.ParameterDefTuple.length

/-- `num_outputs()`. -/
def num_outputs {E : Type} (spec : Specialization E) : Nat :=
  spec.schema.num_outputs

/-- `num_inputs()`. -/
def num_inputs {E : Type} (spec : Specialization E) : Nat :=
  size_t_sub (size_t_sub spec.schema.num_args (num_outputs spec)) (num_parameters spec)

/-! ## The wrapper -/

/-- What the wrapper sees of the workspace through its base class `Operator<Context>`: the
tensors bound to its input and output slots.  They belong to the execution engine. -/
structure Workspace (T : Type) where
  inputs : List T
  outputs : List T
  deriving DecidableEq

/-- `ParameterTuple`: a `std::tuple` with one component per element of `ParameterDefTuple`. -/
abbrev ParameterTuple (n : Nat) := { vs : List ArgValue // vs.length = n }

/-- The state of a `C10OperatorWrapper<OpSchemaDef, Context, use_array_input,
ParameterDefTuple>` object: the input and output slots of the base class, and the two data
members `kernel_` and `parameters_`. -/
structure C10OperatorWrapper {E : Type} (spec : Specialization E) (T K : Type) where
  inputs_ : List T
  outputs_ : List T
  kernel_ : Option K
  parameters_ : ParameterTuple (num_parameters spec)

/-- The collaborators of `call_`: `c10::Dispatcher<OpSchemaDef>::lookup(stack)` and
`OpKernel::call(stack)`.  `σ` is whatever state they have (dispatch table, tensor storage);
`lookup` reads it, `call` may change it and may change the stack it is handed. -/
structure Dispatcher (T K E σ : Type) where
  lookup : σ → Stack T → Except (Exn E) K
  call : σ → K → Stack T → σ × Except (Exn E) (Stack T)

/-- A call the wrapper makes to a collaborator, with the stack it passes. -/
inductive Event (T K : Type) where
  | lookup (stack : Stack T)
  | call (kernel : K) (stack : Stack T)
  deriving DecidableEq

/-- Is the event a `Dispatcher::lookup`? -/
def Event.isLookup {T K : Type} : Event T K → Bool
  | .lookup _ => true
  | .call _ _ => false

/-- Is the event an `OpKernel::call`? -/
def Event.isCall {T K : Type} : Event T K → Bool
  | .lookup _ => false
  | .call _ _ => true

/-- The stack passed in a collaborator call. -/
def Event.stack {T K : Type} : Event T K → Stack T
  | .lookup stack => stack
  | .call _ stack => stack

/-- What running a member function leaves behind: the wrapper, the collaborators' state, the
collaborator calls made (in order), and the value returned or the exception that left the
function. -/
structure Run {E : Type} (spec : Specialization E) (T K σ α : Type) where
  self : C10OperatorWrapper spec T K
  world : σ
  calls : List (Event T K)
  result : Except (Exn E) α

/-- The pack expansion `f(Index)...` over `index_sequence<0, ..., n-1>`, and equally the loop
`for (i = 0; i < n; ++i) result.push_back(f(i))`: the values `f 0, ..., f (n-1)` in index
order, or the first exception. -/
def expand {X α : Type} (f : Nat → Except X α) : Nat → Except X (List α)
  | 0 => .ok []
  | n + 1 =>
    match expand f n with
    | .error e => .error e
    | .ok xs =>
      match f n with
      | .error e => .error e
      | .ok x => .ok (xs ++ [x])

/-- `Parameter<Index>(operator_def)`, for the `Index`-th element `P` of `ParameterDefTuple`. -/
def Parameter {E : Type} (P : ParameterClass E) (operator_def : OperatorDef) :
    Except (Exn E) ArgValue :=
  P.parse (ArgumentHelper.ofDef operator_def)

/-- `parse_parameters_`: the braced list `ParameterTuple{Parameter<ParameterIndex>(operator_def)...}`,
whose elements are evaluated in order. -/
def parse_parameters_ {E : Type} (operator_def : OperatorDef) :
    (Ps : List (ParameterClass E)) → Except (Exn E) (ParameterTuple Ps.length)
  | [] => .ok ⟨[], rfl⟩
  | P :: Ps =>
    match Parameter P operator_def with
    | .error e => .error e
    | .ok v =>
      match parse_parameters_ operator_def Ps with
      | .error e => .error e
      | .ok vs => .ok ⟨v :: vs.1, by simp [vs.2]⟩

/-- Modelled from the spec: access to slot `idx` of a slot vector of the base class
`Operator<Context>` (`caffe2/core/operator.h`, not part of this file). -/
def slot {E T : Type} (slots : List T) (idx : Nat) : Except (Exn E) T :=
  match slots[idx]? with
  | some t => .ok t
  | none => .error (.outOfRange idx)

namespace C10OperatorWrapper

variable {E T K σ : Type} {spec : Specialization E}

/-- The constructor `C10OperatorWrapper(operator_def, ws)`: the base class binds the slots,
`kernel_` starts empty and `parameters_` is parsed; an exception from parsing leaves the
constructor and no object exists. -/
def new (spec : Specialization E) (operator_def : OperatorDef) (ws : Workspace T) :
    Except (Exn E) (C10OperatorWrapper spec T K) :=
  match parse_parameters_ operator_def spec.ParameterDefTuple with
  | .error e => .error e
  | .ok ps => .ok ⟨ws.inputs, ws.outputs, none, ps⟩

/-- Modelled from the spec: `InputSize()` of the base class (`caffe2/core/operator.h`, not part
of this file), the number of input tensors currently available. -/
def InputSize (self : C10OperatorWrapper spec T K) : Nat :=
  self.inputs_.length

/-- Modelled from the spec: `Input(idx)` of the base class, the tensor in input slot `idx`; a
slot that does not exist is an exception. -/
def Input (self : C10OperatorWrapper spec T K) (idx : Nat) : Except (Exn E) T :=
  slot self.inputs_ idx

/-- Modelled from the spec: `Output(idx)` of the base class, the tensor in output slot `idx`; a
slot that does not exist is an exception. -/
def Output (self : C10OperatorWrapper spec T K) (idx : Nat) : Except (Exn E) T :=
  slot self.outputs_ idx

/-- `array_inputs_()`. -/
def array_inputs_ (self : C10OperatorWrapper spec T K) : Except (Exn E) (List T) :=
  expand self.Input self.InputSize

/-- The stack after `torch::jit::push(stack, ...)` in the overload of `RunOnDevice_` for
`!use_array_input`.  `IValue(at::Tensor(C10Tensor(x)))` boxes the tensor `x`.  The operands are
evaluated in the order written; C++ leaves that order open, which only decides the exception
seen when several slots are missing. -/
def push_fixed (self : C10OperatorWrapper spec T K) : Except (Exn E) (Stack T) :=
  match expand self.Input (num_inputs spec) with
  | .error e => .error e
  | .ok ins =>
    match expand self.Output (num_outputs spec) with
    | .error e => .error e
    | .ok outs =>
      .ok (ins.map .tensor ++ self.parameters_.1.map .value ++ outs.map .tensor)

/-- The stack after `torch::jit::push(stack, ...)` in the overload of `RunOnDevice_` for
`use_array_input`. -/
def push_array (self : C10OperatorWrapper spec T K) : Except (Exn E) (Stack T) :=
  match self.array_inputs_ with
  | .error e => .error e
  | .ok ins =>
    match expand self.Output (num_outputs spec) with
    | .error e => .error e
    | .ok outs =>
      .ok (.tensorList ins :: (self.parameters_.1.map .value ++ outs.map .tensor))

/-- The statement `kernel_->call(stack)` of `call_`; `before` are the collaborator calls already
made.  The stack the kernel leaves behind is dropped with the local variable `stack`. -/
def kernel_call (self : C10OperatorWrapper spec T K) (D : Dispatcher T K E σ) (w : σ)
    (before : List (Event T K)) (k : K) (stack : Stack T) : Run spec T K σ Unit :=
  let r := D.call w k stack
  ⟨self, r.1, before ++ [.call k stack], r.2.map (fun _ => ())⟩

/-- `call_(stack)`. -/
def call_ (self : C10OperatorWrapper spec T K) (D : Dispatcher T K E σ) (w : σ)
    (stack : Stack T) : Run spec T K σ Unit :=
  match self.kernel_ with
  | none =>
    match D.lookup w stack with
    | .error e => ⟨self, w, [.lookup stack], .error e⟩
    | .ok k => kernel_call { self with kernel_ := some k } D w [.lookup stack] k stack
  | some k => kernel_call self D w [] k stack

/-- The stack `RunOnDevice_` builds, in the overload selected by `use_array_input`. -/
def push (self : C10OperatorWrapper spec T K) : Except (Exn E) (Stack T) :=
  if spec.use_array_input then self.push_array else self.push_fixed

/-- `RunOnDevice_(...)`: build the stack, then `call_(&stack)`. -/
def RunOnDevice_ (self : C10OperatorWrapper spec T K) (D : Dispatcher T K E σ) (w : σ) :
    Run spec T K σ Unit :=
  match self.push with
  | .error e => ⟨self, w, [], .error e⟩
  | .ok stack => self.call_ D w stack

/-- `RunOnDevice()`. -/
def RunOnDevice (self : C10OperatorWrapper spec T K) (D : Dispatcher T K E σ) (w : σ) :
    Run spec T K σ Bool :=
  let r := self.RunOnDevice_ D w
  ⟨r.self, r.world, r.calls,
    match r.result with
    | .error e => .error e
    | .ok () => .ok true⟩

/-- The part of a stack built by `RunOnDevice_` where the parameters are: after the inputs
(`num_inputs()` slots, or the one tensor list), `num_parameters()` slots. -/
def parameter_segment (spec : Specialization E) (stack : Stack T) : Stack T :=
  (stack.drop (if spec.use_array_input then 1 else num_inputs spec)).take (num_parameters spec)

/-- The engine binds other tensors to the slots of the operator. -/
def rebind (self : C10OperatorWrapper spec T K) (ws : Workspace T) :
    C10OperatorWrapper spec T K :=
  { self with inputs_ := ws.inputs, outputs_ := ws.outputs }

/-- A sequence of invocations of `RunOnDevice` on one wrapper object, one per element of `wss`
(the tensors the engine has bound to the slots at that invocation), whatever each invocation
returns or throws. -/
def invocations (D : Dispatcher T K E σ) :
    C10OperatorWrapper spec T K → σ → List (Workspace T) → List (Run spec T K σ Bool)
  | _, _, [] => []
  | self, w, ws :: wss =>
    let r := (self.rebind ws).RunOnDevice D w
    r :: invocations D r.self r.world wss

end C10OperatorWrapper

/-- The collaborator calls of a sequence of invocations, in order. -/
def allCalls {E T K σ α : Type} {spec : Specialization E} (rs : List (Run spec T K σ α)) :
    List (Event T K) :=
  match rs with
  | [] => []
  | r :: rs => r.calls ++ allCalls rs

/-! ## Concrete specializations and collaborators -/

namespace Examples

/-- A schema with three arguments, one of them the output, and no parameter: two inputs. -/
def add_spec : Specialization Nat := ⟨⟨3, 1⟩, false, []⟩

/-- An `add_spec` wrapper before its first run, with inputs `A`, `B` and output `C`. -/
def add_op : C10OperatorWrapper add_spec String Nat := ⟨["A", "B"], ["C"], none, ⟨[], rfl⟩⟩

/-- A schema taking a tensor list and one output, with no parameter. -/
def concat_spec : Specialization Nat := ⟨⟨2, 1⟩, true, []⟩

/-- A `concat_spec` wrapper before its first run, bound to the given tensors. -/
def concat_op (ws : Workspace String) : C10OperatorWrapper concat_spec String Nat :=
  ⟨ws.inputs, ws.outputs, none, ⟨[], rfl⟩⟩

/-- The parameter `alpha` of type `float` with default `1.0f` (bit pattern `0x3F800000`). -/
def alpha : ParameterDef := ⟨.float, "alpha", .float 0x3F800000⟩

/-- A schema with no input, the parameter `alpha` and one output. -/
def fill_spec : Specialization Nat := ⟨⟨2, 1⟩, false, [ParameterHelper alpha]⟩

/-- A `fill_spec` wrapper before its first run, holding the default of `alpha`, with output
`C`. -/
def fill_op : C10OperatorWrapper fill_spec String Nat :=
  ⟨[], ["C"], none, ⟨[.float 0x3F800000], rfl⟩⟩

/-- A schema with no input, the parameter `alpha` declared with no default, and one output. -/
def scale_spec : Specialization Nat := ⟨⟨2, 1⟩, false, [RequiredParameter .float "alpha"]⟩

/-- A specialization whose schema has one argument, which is its output, but which is given a
parameter all the same. -/
def short_spec : Specialization Nat := ⟨⟨1, 1⟩, false, [ParameterHelper alpha]⟩

/-- A dispatcher that resolves to the kernel numbered by the size of the leading tensor list
(or, without one, by the size of the stack); its kernels leave the stack as it is. -/
def by_size : Dispatcher String Nat Nat Unit where
  lookup := fun _ stack =>
    match stack with
    | .tensorList ts :: _ => .ok ts.length
    | _ => .ok stack.length
  call := fun w _ stack => (w, .ok stack)

/-- A dispatcher that finds no kernel. -/
def no_kernel : Dispatcher String Nat Nat Unit where
  lookup := fun _ _ => .error (.thrown 7)
  call := fun w _ stack => (w, .ok stack)

/-- A dispatcher that resolves to the kernel numbered by the size of the stack; its kernels
throw. -/
def failing_kernel : Dispatcher String Nat Nat Unit where
  lookup := fun _ stack => .ok stack.length
  call := fun w _ _ => (w, .error (.thrown 9))

end Examples

/-! # Theorems -/

open C10OperatorWrapper

theorem expand_slot_iff {E α : Type} (l : List α) :
    ∀ (n : Nat) (xs : List α),
      expand (slot l : Nat → Except (Exn E) α) n = .ok xs ↔ n ≤ l.length ∧ xs = l.take n
  | 0, xs => by
    simp only [expand, Except.ok.injEq, Nat.zero_le, List.take_zero, true_and]
    exact eq_comm
  | n + 1, xs => by
    have ih := expand_slot_iff (E := E) l n
    simp only [expand]
    cases h : expand (slot l : Nat → Except (Exn E) α) n with
    | error e =>
      constructor
      · intro hx
        cases hx
      · rintro ⟨hn, -⟩
        have := (ih (l.take n)).2 ⟨by omega, rfl⟩
        rw [h] at this
        cases this
    | ok ys =>
      obtain ⟨hn, hys⟩ := (ih ys).1 h
      subst hys
      simp only [slot]
      cases hl : l[n]? with
      | none =>
        have : l.length ≤ n := List.getElem?_eq_none_iff.1 hl
        constructor
        · intro hx
          cases hx
        · rintro ⟨h1, -⟩
          omega
      | some t =>
        obtain ⟨hlt, ht⟩ := List.getElem?_eq_some.1 hl
        simp only [Except.ok.injEq]
        constructor
        · intro hx
          refine ⟨hlt, ?_⟩
          rw [← hx, List.take_succ, hl]
          rfl
        · rintro ⟨_, hx⟩
          rw [hx, List.take_succ, hl]
          rfl

theorem expand_slot {E α : Type} (l : List α) (n : Nat) (h : n ≤ l.length) :
    expand (slot l : Nat → Except (Exn E) α) n = .ok (l.take n) :=
  (expand_slot_iff l n _).2 ⟨h, rfl⟩

theorem getElem?_append3_left {α : Type} (A B C : List α) (i : Nat) (h : i < A.length) :
    (A ++ B ++ C)[i]? = A[i]? := by
  rw [List.append_assoc, List.getElem?_append_left h]

theorem getElem?_append_length_add {α : Type} (B C : List α) (j : Nat) :
    (B ++ C)[B.length + j]? = C[j]? := by
  rw [List.getElem?_append_right (Nat.le_add_right _ _), Nat.add_sub_cancel_left]

theorem getElem?_append3_mid {α : Type} (A B C : List α) (j : Nat) :
    (A ++ B ++ C)[A.length + j]? = (B ++ C)[j]? := by
  rw [List.append_assoc, List.getElem?_append_right (Nat.le_add_right _ _), Nat.add_sub_cancel_left]

theorem getElem?_append3_right {α : Type} (A B C : List α) (j : Nat) :
    (A ++ B ++ C)[A.length + B.length + j]? = C[j]? := by
  rw [← List.length_append, List.getElem?_append_right (Nat.le_add_right _ _),
    Nat.add_sub_cancel_left]

namespace C10OperatorWrapper

variable {E T K σ : Type} {spec : Specialization E}

/-- C1. Fixed-arity mode: an adapter with at least `num_inputs()` inputs and `num_outputs()`
outputs hands `call_` a stack of length `k + p + m` holding `Input(0..k-1)`, then the stored
parameters in declared order, then `Output(0..m-1)`. -/
theorem C1_fixed_arity_stack (self : C10OperatorWrapper spec T K) (D : Dispatcher T K E σ)
    (w : σ) (hmode : spec.use_array_input = false)
    (hin : num_inputs spec ≤ self.inputs_.length)
    (hout : num_outputs spec ≤ self.outputs_.length) :
    ∃ stack : Stack T,
      self.push = .ok stack ∧ self.RunOnDevice_ D w = self.call_ D w stack ∧
      stack = (self.inputs_.take (num_inputs spec)).map .tensor
          ++ self.parameters_.1.map .value
          ++ (self.outputs_.take (num_outputs spec)).map .tensor ∧
      stack.length = num_inputs spec + num_parameters spec + num_outputs spec ∧
      (∀ i, i < num_inputs spec →
        ∃ t, self.Input i = .ok t ∧ stack[i]? = some (.tensor t)) ∧
      (∀ j, j < num_parameters spec →
        ∃ v, self.parameters_.1[j]? = some v ∧
          stack[num_inputs spec + j]? = some (.value v)) ∧
      (∀ j, j < num_outputs spec →
        ∃ t, self.Output j = .ok t ∧
          stack[num_inputs spec + num_parameters spec + j]? = some (.tensor t)) := by
  have hI : expand self.Input (num_inputs spec) = .ok (self.inputs_.take (num_inputs spec)) :=
    expand_slot self.inputs_ _ hin
  have hO : expand self.Output (num_outputs spec)
      = .ok (self.outputs_.take (num_outputs spec)) :=
    expand_slot self.outputs_ _ hout
  have hp : self.push = .ok ((self.inputs_.take (num_inputs spec)).map .tensor
          ++ self.parameters_.1.map .value
          ++ (self.outputs_.take (num_outputs spec)).map .tensor) := by
    simp only [push, hmode, push_fixed, hI, hO]
    rfl
  have hlenI : (self.inputs_.take (num_inputs spec)).length = num_inputs spec :=
    List.length_take_of_le hin
  have hlenO : (self.outputs_.take (num_outputs spec)).length = num_outputs spec :=
    List.length_take_of_le hout
  have hlenP := self.parameters_.2
  have hA : ((self.inputs_.take (num_inputs spec)).map (IValue.tensor (T := T))).length
      = num_inputs spec := by rw [List.length_map, hlenI]
  have hB : (self.parameters_.1.map (IValue.value (T := T))).length = num_parameters spec := by
    rw [List.length_map, hlenP]
  have hC : ((self.outputs_.take (num_outputs spec)).map (IValue.tensor (T := T))).length
      = num_outputs spec := by rw [List.length_map, hlenO]
  refine ⟨_, hp, ?_, rfl, ?_, ?_, ?_, ?_⟩
  · simp only [RunOnDevice_, hp]
  · rw [List.length_append, List.length_append, hA, hB, hC]
  · intro i hi
    have hlt : i < self.inputs_.length := by omega
    refine ⟨self.inputs_[i], ?_, ?_⟩
    · simp [Input, slot, hlt]
    · rw [getElem?_append3_left _ _ _ i (by rw [hA]; exact hi), List.getElem?_map,
        List.getElem?_take_of_lt hi, List.getElem?_eq_getElem hlt]
      rfl
  · intro j hj
    have hlt : j < self.parameters_.1.length := by omega
    refine ⟨self.parameters_.1[j], List.getElem?_eq_getElem hlt, ?_⟩
    have h := getElem?_append3_mid ((self.inputs_.take (num_inputs spec)).map .tensor)
      (self.parameters_.1.map (IValue.value (T := T)))
      ((self.outputs_.take (num_outputs spec)).map .tensor) j
    rw [hA] at h
    rw [h, List.getElem?_append_left (by rw [hB]; exact hj), List.getElem?_map,
      List.getElem?_eq_getElem hlt]
    rfl
  · intro j hj
    have hlt : j < self.outputs_.length := by omega
    refine ⟨self.outputs_[j], ?_, ?_⟩
    · simp [Output, slot, hlt]
    · have h := getElem?_append3_right ((self.inputs_.take (num_inputs spec)).map .tensor)
        (self.parameters_.1.map (IValue.value (T := T)))
        ((self.outputs_.take (num_outputs spec)).map .tensor) j
      rw [hA, hB] at h
      rw [h, List.getElem?_map, List.getElem?_take_of_lt hj, List.getElem?_eq_getElem hlt]
      rfl

/-- C1 at two inputs `A`, `B`, no parameter and one output `C`: the stack is `[A, B, C]`. -/
theorem C1_fixed_arity_stack_witness :
    num_inputs Examples.add_spec = 2 ∧ num_parameters Examples.add_spec = 0 ∧
    num_outputs Examples.add_spec = 1 ∧
    Examples.add_op.RunOnDevice_ Examples.by_size ()
      = Examples.add_op.call_ Examples.by_size ()
          [.tensor "A", .tensor "B", .tensor "C"] := by
  obtain ⟨stack, -, hrun, hstack, -⟩ :=
    C1_fixed_arity_stack Examples.add_op Examples.by_size () rfl (by decide) (by decide)
  refine ⟨by decide, by decide, by decide, ?_⟩
  rw [hrun, hstack]
  rfl

theorem array_stack_iff (self : C10OperatorWrapper spec T K)
    (hmode : spec.use_array_input = true) :
    ∀ stack : Stack T, self.push = .ok stack ↔
      (num_outputs spec ≤ self.outputs_.length ∧
        stack = .tensorList self.inputs_ :: (self.parameters_.1.map .value
          ++ (self.outputs_.take (num_outputs spec)).map .tensor)) := by
  have hI : self.array_inputs_ = .ok self.inputs_ := by
    have := expand_slot (E := E) self.inputs_ self.inputs_.length (Nat.le_refl _)
    rw [List.take_length] at this
    exact this
  intro stack
  simp only [push, hmode, push_array, hI, if_true]
  cases hO : expand self.Output (num_outputs spec) with
  | error e =>
    constructor
    · intro h
      cases h
    · rintro ⟨hle, -⟩
      have := expand_slot (E := E) self.outputs_ _ hle
      rw [show expand (slot self.outputs_) (num_outputs spec)
        = expand self.Output (num_outputs spec) from rfl, hO] at this
      cases this
  | ok outs =>
    obtain ⟨hle, houts⟩ := (expand_slot_iff (E := E) self.outputs_ _ outs).1 hO
    subst houts
    simp only [Except.ok.injEq]
    constructor
    · intro h
      exact ⟨hle, h.symm⟩
    · rintro ⟨-, h⟩
      exact h.symm

/-- C2. Variadic-input mode: whatever the number `n` of inputs, a stack handed to `call_` has
length `1 + p + m`; its first element is one tensor list holding `Input(0..n-1)`, followed by
the parameters in declared order and the outputs in index order.  A stack is built exactly when
the `m` output slots exist. -/
theorem C2_array_input_stack (self : C10OperatorWrapper spec T K) (D : Dispatcher T K E σ)
    (w : σ) (hmode : spec.use_array_input = true) :
    (∀ stack : Stack T, self.push = .ok stack ↔
      (num_outputs spec ≤ self.outputs_.length ∧
        stack = .tensorList self.inputs_ :: (self.parameters_.1.map .value
          ++ (self.outputs_.take (num_outputs spec)).map .tensor))) ∧
    (∀ stack : Stack T, self.push = .ok stack →
      self.RunOnDevice_ D w = self.call_ D w stack ∧
      stack.length = 1 + num_parameters spec + num_outputs spec ∧
      (∃ ins : List T, stack[0]? = some (.tensorList ins) ∧ ins.length = self.InputSize ∧
        ∀ i, i < self.InputSize → ∃ t, self.Input i = .ok t ∧ ins[i]? = some t) ∧
      (∀ j, j < num_parameters spec →
        ∃ v, self.parameters_.1[j]? = some v ∧ stack[1 + j]? = some (.value v)) ∧
      (∀ j, j < num_outputs spec →
        ∃ t, self.Output j = .ok t ∧
          stack[1 + num_parameters spec + j]? = some (.tensor t))) := by
  have hiff := array_stack_iff self hmode
  refine ⟨hiff, ?_⟩
  intro stack hp
  obtain ⟨hout, hstack⟩ := (hiff stack).1 hp
  have hlenO : (self.outputs_.take (num_outputs spec)).length = num_outputs spec :=
    List.length_take_of_le hout
  have hlenP := self.parameters_.2
  have hB : (self.parameters_.1.map (IValue.value (T := T))).length = num_parameters spec := by
    rw [List.length_map, hlenP]
  have hpos : ∀ n, stack[1 + n]? = (self.parameters_.1.map .value
          ++ (self.outputs_.take (num_outputs spec)).map .tensor)[n]? := by
    intro n
    rw [hstack, Nat.add_comm 1 n, List.getElem?_cons_succ]
  refine ⟨?_, ?_, ⟨self.inputs_, ?_, rfl, ?_⟩, ?_, ?_⟩
  · simp only [RunOnDevice_, hp]
  · rw [hstack, List.length_cons, List.length_append, hB, List.length_map, hlenO]
    omega
  · rw [hstack, List.getElem?_cons_zero]
  · intro i hi
    have hlt : i < self.inputs_.length := hi
    exact ⟨self.inputs_[i], by simp [Input, slot, hlt], List.getElem?_eq_getElem hlt⟩
  · intro j hj
    have hlt : j < self.parameters_.1.length := by omega
    refine ⟨self.parameters_.1[j], List.getElem?_eq_getElem hlt, ?_⟩
    rw [hpos, List.getElem?_append_left (by rw [hB]; exact hj), List.getElem?_map,
      List.getElem?_eq_getElem hlt]
    rfl
  · intro j hj
    have hlt : j < self.outputs_.length := by omega
    refine ⟨self.outputs_[j], by simp [Output, slot, hlt], ?_⟩
    have h := getElem?_append_length_add (self.parameters_.1.map (IValue.value (T := T)))
      ((self.outputs_.take (num_outputs spec)).map .tensor) j
    rw [hB] at h
    rw [Nat.add_assoc, hpos, h, List.getElem?_map, List.getElem?_take_of_lt hj,
      List.getElem?_eq_getElem hlt]
    rfl

/-- C2 at no input and one output `C`: the stack is the empty tensor list, then `C`. -/
theorem C2_array_input_stack_witness :
    (Examples.concat_op ⟨[], ["C"]⟩).RunOnDevice_ Examples.by_size ()
      = (Examples.concat_op ⟨[], ["C"]⟩).call_ Examples.by_size ()
          [.tensorList [], .tensor "C"] ∧
    ([.tensorList [], .tensor "C"] : Stack String).length
      = 1 + num_parameters Examples.concat_spec + num_outputs Examples.concat_spec :=
  have h := (C2_array_input_stack (Examples.concat_op ⟨[], ["C"]⟩) Examples.by_size () rfl).2
    [.tensorList [], .tensor "C"] rfl
  ⟨h.1, h.2.1⟩

end C10OperatorWrapper


/-! ## `num_inputs` -/

/-- C7 (as stated, refuted). A specialization with one schema argument, one output and one
parameter has `num_inputs() = 2^64 - 1`, and `num_inputs() + m + p` is not `a`. -/
theorem C7_num_inputs_wraps :
    Examples.short_spec.schema.num_args = 1 ∧ num_outputs Examples.short_spec = 1 ∧
    num_parameters Examples.short_spec = 1 ∧
    num_inputs Examples.short_spec = 18446744073709551615 ∧
    num_inputs Examples.short_spec + num_outputs Examples.short_spec
      + num_parameters Examples.short_spec ≠ Examples.short_spec.schema.num_args := by
  decide

/-- C7 (amended). For `size_t` constants `a`, `m`, `p`, `num_inputs()` is `(a - m - p) mod 2^64`,
and `num_inputs() + m + p = a` holds exactly when `m + p ≤ a`. -/
theorem C7_num_inputs_mod {E : Type} (spec : Specialization E)
    (ha : spec.schema.num_args < 2 ^ 64) (hm : num_outputs spec < 2 ^ 64)
    (hp : num_parameters spec < 2 ^ 64) :
    (num_inputs spec : Int)
      = ((spec.schema.num_args : Int) - num_outputs spec - num_parameters spec) % 2 ^ 64 ∧
    num_inputs spec < 2 ^ 64 ∧
    (num_inputs spec + num_outputs spec + num_parameters spec = spec.schema.num_args ↔
      num_outputs spec + num_parameters spec ≤ spec.schema.num_args) := by
  simp only [num_inputs, size_t_sub]
  generalize spec.schema.num_args = a at *
  generalize num_outputs spec = m at *
  generalize num_parameters spec = p at *
  norm_num at *
  omega

/-- C7 at three schema arguments, one output and no parameter: two inputs. -/
theorem C7_num_inputs_mod_witness :
    num_inputs Examples.add_spec = 2 ∧
    (num_inputs Examples.add_spec + num_outputs Examples.add_spec
      + num_parameters Examples.add_spec = Examples.add_spec.schema.num_args ↔
      num_outputs Examples.add_spec + num_parameters Examples.add_spec
        ≤ Examples.add_spec.schema.num_args) :=
  ⟨by decide,
    (C7_num_inputs_mod Examples.add_spec (by decide) (by decide) (by decide)).2.2⟩


/-! ## Parameter parsing -/

theorem find_eq_none_iff (helper : ArgumentHelper) (name : String) :
    helper.find name = none ↔ ∀ a ∈ helper.args, a.name ≠ name := by
  simp only [ArgumentHelper.find, List.find?_eq_none, beq_iff_eq]

theorem find_eq_some (helper : ArgumentHelper) (name : String) (a : Argument)
    (h : helper.find name = some a) : a ∈ helper.args ∧ a.name = name := by
  simp only [ArgumentHelper.find] at h
  refine ⟨List.mem_of_find?_eq_some h, ?_⟩
  have := List.find?_some h
  exact beq_iff_eq.1 this

theorem GetSingleArgument_absent {E : Type} (helper : ArgumentHelper) (T : ArgType)
    (name : String) (d : ArgValue) (h : ∀ a ∈ helper.args, a.name ≠ name) :
    helper.GetSingleArgument T name d = (.ok d : Except (Exn E) ArgValue) := by
  simp only [ArgumentHelper.GetSingleArgument, (find_eq_none_iff helper name).2 h]

theorem GetSingleArgument_present {E : Type} (helper : ArgumentHelper) (T : ArgType)
    (name : String) (d v : ArgValue) (hex : ∃ a ∈ helper.args, a.name = name)
    (hall : ∀ a ∈ helper.args, a.name = name → a.value = v) (hty : v.type = T) :
    helper.GetSingleArgument T name d = (.ok v : Except (Exn E) ArgValue) := by
  simp only [ArgumentHelper.GetSingleArgument]
  cases hf : helper.find name with
  | none =>
    obtain ⟨a, ha, hn⟩ := hex
    exact absurd hn ((find_eq_none_iff helper name).1 hf a ha)
  | some a =>
    obtain ⟨ha, hn⟩ := find_eq_some helper name a hf
    have hv := hall a ha hn
    simp only [hv, hty, if_true]

theorem GetSingleArgument_error {E : Type} (helper : ArgumentHelper) (T : ArgType)
    (name : String) (d : ArgValue) (e : Exn E)
    (h : helper.GetSingleArgument T name d = .error e) :
    ∃ a ∈ helper.args, a.name = name ∧ a.value.type ≠ T := by
  simp only [ArgumentHelper.GetSingleArgument] at h
  cases hf : helper.find name with
  | none =>
    rw [hf] at h
    cases h
  | some a =>
    rw [hf] at h
    obtain ⟨ha, hn⟩ := find_eq_some helper name a hf
    refine ⟨a, ha, hn, ?_⟩
    intro hty
    simp only [hty, if_true] at h
    cases h

theorem parse_parameters_getElem {E : Type} (operator_def : OperatorDef) :
    ∀ (Ps : List (ParameterClass E)) (vs : ParameterTuple Ps.length),
      parse_parameters_ operator_def Ps = .ok vs →
      ∀ (i : Nat) (P : ParameterClass E), Ps[i]? = some P →
        ∃ v, Parameter P operator_def = .ok v ∧ vs.1[i]? = some v
  | [], _, _, i, P, hP => by simp at hP
  | Q :: Ps, vs, h, i, P, hP => by
    simp only [parse_parameters_] at h
    cases hQ : Parameter Q operator_def with
    | error e =>
      rw [hQ] at h
      cases h
    | ok v =>
      rw [hQ] at h
      cases hPs : parse_parameters_ operator_def Ps with
      | error e =>
        rw [hPs] at h
        cases h
      | ok ws =>
        rw [hPs] at h
        simp only [Except.ok.injEq] at h
        subst h
        cases i with
        | zero =>
          simp only [List.getElem?_cons_zero, Option.some.injEq] at hP
          subst hP
          exact ⟨v, hQ, List.getElem?_cons_zero⟩
        | succ i =>
          simp only [List.getElem?_cons_succ] at hP
          obtain ⟨u, hu, hget⟩ := parse_parameters_getElem operator_def Ps ws hPs i P hP
          exact ⟨u, hu, by simpa using hget⟩

theorem parse_parameters_error_iff {E : Type} (operator_def : OperatorDef) (e : Exn E) :
    ∀ (Ps : List (ParameterClass E)),
      parse_parameters_ operator_def Ps = .error e ↔
      ∃ (i : Nat) (P : ParameterClass E), Ps[i]? = some P ∧
        Parameter P operator_def = .error e ∧
        ∀ (j : Nat) (Q : ParameterClass E), j < i → Ps[j]? = some Q →
          ∃ v, Parameter Q operator_def = .ok v
  | [] => by
    simp only [parse_parameters_]
    constructor
    · intro h
      cases h
    · rintro ⟨i, P, hP, -⟩
      simp at hP
  | Q :: Ps => by
    have ih := parse_parameters_error_iff operator_def e Ps
    simp only [parse_parameters_]
    cases hQ : Parameter Q operator_def with
    | error e1 =>
      dsimp only
      constructor
      · intro h
        simp only [Except.error.injEq] at h
        subst h
        exact ⟨0, Q, List.getElem?_cons_zero, hQ, fun j _ hj => absurd hj (Nat.not_lt_zero j)⟩
      · rintro ⟨i, P, hP, hPe, hbefore⟩
        cases i with
        | zero =>
          simp only [List.getElem?_cons_zero, Option.some.injEq] at hP
          subst hP
          rw [hQ] at hPe
          cases hPe
          rfl
        | succ i =>
          obtain ⟨v, hv⟩ := hbefore 0 Q (Nat.succ_pos i) List.getElem?_cons_zero
          rw [hQ] at hv
          cases hv
    | ok v =>
      cases hPs : parse_parameters_ operator_def Ps with
      | error e2 =>
        dsimp only
        constructor
        · intro h
          simp only [Except.error.injEq] at h
          subst h
          obtain ⟨i, P, hP, hPe, hbefore⟩ := ih.1 hPs
          refine ⟨i + 1, P, by simpa using hP, hPe, ?_⟩
          intro j R hj hR
          cases j with
          | zero =>
            simp only [List.getElem?_cons_zero, Option.some.injEq] at hR
            subst hR
            exact ⟨v, hQ⟩
          | succ j =>
            exact hbefore j R (Nat.lt_of_succ_lt_succ hj) (by simpa using hR)
        · rintro ⟨i, P, hP, hPe, hbefore⟩
          cases i with
          | zero =>
            simp only [List.getElem?_cons_zero, Option.some.injEq] at hP
            subst hP
            rw [hQ] at hPe
            cases hPe
          | succ i =>
            have := ih.2 ⟨i, P, by simpa using hP, hPe, fun j R hj hR =>
              hbefore (j + 1) R (Nat.succ_lt_succ hj) (by simpa using hR)⟩
            rw [hPs] at this
            cases this
            rfl
      | ok ws =>
        dsimp only
        constructor
        · intro h
          cases h
        · rintro ⟨i, P, hP, hPe, hbefore⟩
          cases i with
          | zero =>
            simp only [List.getElem?_cons_zero, Option.some.injEq] at hP
            subst hP
            rw [hQ] at hPe
            cases hPe
          | succ i =>
            have := ih.2 ⟨i, P, by simpa using hP, hPe, fun j R hj hR =>
              hbefore (j + 1) R (Nat.succ_lt_succ hj) (by simpa using hR)⟩
            rw [hPs] at this
            cases this

namespace C10OperatorWrapper

variable {E T K σ : Type} {spec : Specialization E}

theorem new_ok_iff (spec : Specialization E) (operator_def : OperatorDef) (ws : Workspace T)
    (a : C10OperatorWrapper spec T K) :
    new spec operator_def ws = .ok a ↔
      parse_parameters_ operator_def spec.ParameterDefTuple = .ok a.parameters_ ∧
      a.inputs_ = ws.inputs ∧ a.outputs_ = ws.outputs ∧ a.kernel_ = none := by
  simp only [new]
  cases h : parse_parameters_ operator_def spec.ParameterDefTuple with
  | error e =>
    constructor
    · intro h1
      cases h1
    · rintro ⟨h1, -⟩
      cases h1
  | ok ps =>
    simp only [Except.ok.injEq]
    constructor
    · intro h1
      subst h1
      exact ⟨rfl, rfl, rfl, rfl⟩
    · rintro ⟨h1, h2, h3, h4⟩
      cases a
      simp only at h1 h2 h3 h4
      subst h1 h2 h3 h4
      rfl

theorem new_error_iff (spec : Specialization E) (operator_def : OperatorDef) (ws : Workspace T)
    (e : Exn E) :
    (new spec operator_def ws : Except (Exn E) (C10OperatorWrapper spec T K)) = .error e ↔
      parse_parameters_ operator_def spec.ParameterDefTuple = .error e := by
  simp only [new]
  cases h : parse_parameters_ operator_def spec.ParameterDefTuple with
  | error e1 => simp
  | ok ps => simp


/-- C4. Default fallback: when the operator definition has no argument named like the
parameter, `ParameterHelper::parse` returns the declared default and the constructed wrapper
holds it at the parameter's index; when the definition has an argument of that name, of the
declared type and with value `v`, they are `v`. -/
theorem C4_default_fallback (pd : ParameterDef) (operator_def : OperatorDef) :
    ((∀ a ∈ operator_def.arg, a.name ≠ pd.name) →
      ParameterHelper.parse pd (ArgumentHelper.ofDef operator_def)
        = (.ok pd.default_value : Except (Exn E) ArgValue) ∧
      ∀ (spec : Specialization E) (ws : Workspace T) (a : C10OperatorWrapper spec T K)
        (i : Nat), new spec operator_def ws = .ok a →
        spec.ParameterDefTuple[i]? = some (ParameterHelper pd) →
        a.parameters_.1[i]? = some pd.default_value) ∧
    (∀ v : ArgValue, (∃ a ∈ operator_def.arg, a.name = pd.name) →
      (∀ a ∈ operator_def.arg, a.name = pd.name → a.value = v) → v.type = pd.type →
      ParameterHelper.parse pd (ArgumentHelper.ofDef operator_def)
        = (.ok v : Except (Exn E) ArgValue) ∧
      ∀ (spec : Specialization E) (ws : Workspace T) (a : C10OperatorWrapper spec T K)
        (i : Nat), new spec operator_def ws = .ok a →
        spec.ParameterDefTuple[i]? = some (ParameterHelper pd) →
        a.parameters_.1[i]? = some v) := by
  have key : ∀ u : ArgValue,
      ParameterHelper.parse pd (ArgumentHelper.ofDef operator_def)
        = (.ok u : Except (Exn E) ArgValue) →
      ∀ (spec : Specialization E) (ws : Workspace T) (a : C10OperatorWrapper spec T K)
        (i : Nat), new spec operator_def ws = .ok a →
        spec.ParameterDefTuple[i]? = some (ParameterHelper pd) →
        a.parameters_.1[i]? = some u := by
    intro u hu spec ws a i ha hi
    obtain ⟨hps, -⟩ := (new_ok_iff spec operator_def ws a).1 ha
    obtain ⟨v, hv, hget⟩ := parse_parameters_getElem operator_def _ _ hps i _ hi
    have : (Except.ok v : Except (Exn E) ArgValue) = .ok u := by
      rw [← hv, ← hu]
      rfl
    cases this
    exact hget
  constructor
  · intro habs
    have h := GetSingleArgument_absent (E := E) (ArgumentHelper.ofDef operator_def) pd.type
      pd.name pd.default_value habs
    exact ⟨h, key _ h⟩
  · intro v hex hall hty
    have h := GetSingleArgument_present (E := E) (ArgumentHelper.ofDef operator_def) pd.type
      pd.name pd.default_value v hex hall hty
    exact ⟨h, key _ h⟩

/-- C4 at the parameter `alpha` with default `1.0f` and a definition without arguments: the
parameter set holds `1.0f`. -/
theorem C4_default_fallback_witness :
    ParameterHelper.parse Examples.alpha (ArgumentHelper.ofDef ⟨"fill", "Fill", []⟩)
        = (.ok (.float 0x3F800000) : Except (Exn Nat) ArgValue) ∧
    ∃ a : C10OperatorWrapper Examples.fill_spec String Nat,
      new Examples.fill_spec ⟨"fill", "Fill", []⟩ ⟨[], ["C"]⟩ = .ok a ∧
      a.parameters_.1[0]? = some (.float 0x3F800000) :=
  have h := (C4_default_fallback (E := Nat) (T := String) (K := Nat) Examples.alpha
    ⟨"fill", "Fill", []⟩).1 (fun _ ha => nomatch ha)
  ⟨h.1, Examples.fill_op, rfl, h.2 Examples.fill_spec ⟨[], ["C"]⟩ _ 0 rfl rfl⟩

/-- Parsing and construction: `ParameterHelper::parse` takes the default for an absent
argument and fails only on an argument present with another type; the constructor throws `e`
exactly when the first failing parameter throws `e`, and a wrapper that exists holds a parsed
value for every parameter. -/
theorem construction_fails_iff_parse_fails (spec : Specialization E)
    (operator_def : OperatorDef) (ws : Workspace T) :
    (∀ pd : ParameterDef, (∀ a ∈ operator_def.arg, a.name ≠ pd.name) →
      Parameter (ParameterHelper pd) operator_def
        = (.ok pd.default_value : Except (Exn E) ArgValue)) ∧
    (∀ (pd : ParameterDef) (e : Exn E),
      Parameter (ParameterHelper pd) operator_def = .error e →
      ∃ a ∈ operator_def.arg, a.name = pd.name ∧ a.value.type ≠ pd.type) ∧
    (∀ e : Exn E,
      (new spec operator_def ws : Except (Exn E) (C10OperatorWrapper spec T K)) = .error e ↔
      ∃ (i : Nat) (P : ParameterClass E), spec.ParameterDefTuple[i]? = some P ∧
        Parameter P operator_def = .error e ∧
        ∀ (j : Nat) (Q : ParameterClass E), j < i → spec.ParameterDefTuple[j]? = some Q →
          ∃ v, Parameter Q operator_def = .ok v) ∧
    (∀ a : C10OperatorWrapper spec T K, new spec operator_def ws = .ok a →
      a.kernel_ = none ∧
      ∀ (i : Nat) (P : ParameterClass E), spec.ParameterDefTuple[i]? = some P →
        ∃ v, Parameter P operator_def = .ok v ∧ a.parameters_.1[i]? = some v) := by
  refine ⟨?_, ?_, ?_, ?_⟩
  · intro pd habs
    exact GetSingleArgument_absent (ArgumentHelper.ofDef operator_def) _ _ _ habs
  · intro pd e he
    exact GetSingleArgument_error (ArgumentHelper.ofDef operator_def) _ _ _ e he
  · intro e
    rw [new_error_iff]
    exact parse_parameters_error_iff operator_def e _
  · intro a ha
    obtain ⟨hps, -, -, hk⟩ := (new_ok_iff spec operator_def ws a).1 ha
    exact ⟨hk, parse_parameters_getElem operator_def _ _ hps⟩

/-- C5. A parameter declared with no default and absent from the operator definition makes
construction fail, never execution: its `parse` throws, the constructor returns an error
(the configuration error for that parameter when the parameters before it parse), and there is
no wrapper on which `RunOnDevice` could be invoked. -/
theorem C5_missing_parameter_fails_construction (spec : Specialization E)
    (operator_def : OperatorDef) (ws : Workspace T) (i : Nat) (ty : ArgType) (name : String)
    (hdecl : spec.ParameterDefTuple[i]? = some (RequiredParameter ty name))
    (habs : ∀ a ∈ operator_def.arg, a.name ≠ name) :
    Parameter (RequiredParameter ty name) operator_def
      = (.error (.enforce name) : Except (Exn E) ArgValue) ∧
    (∃ e : Exn E,
      (new spec operator_def ws : Except (Exn E) (C10OperatorWrapper spec T K)) = .error e) ∧
    (∀ a : C10OperatorWrapper spec T K, new spec operator_def ws ≠ .ok a) ∧
    ((∀ (j : Nat) (Q : ParameterClass E), j < i → spec.ParameterDefTuple[j]? = some Q →
        ∃ v, Parameter Q operator_def = .ok v) →
      (new spec operator_def ws : Except (Exn E) (C10OperatorWrapper spec T K))
        = .error (.enforce name)) := by
  have hparse : Parameter (RequiredParameter ty name) operator_def
      = (.error (.enforce name) : Except (Exn E) ArgValue) := by
    simp only [Parameter, RequiredParameter, RequiredParameter.parse,
      (find_eq_none_iff (ArgumentHelper.ofDef operator_def) name).2 habs]
  have hnone : ∀ a : C10OperatorWrapper spec T K, new spec operator_def ws ≠ .ok a := by
    intro a ha
    obtain ⟨hps, -⟩ := (new_ok_iff spec operator_def ws a).1 ha
    obtain ⟨v, hv, -⟩ := parse_parameters_getElem operator_def _ _ hps i _ hdecl
    rw [hparse] at hv
    cases hv
  refine ⟨hparse, ?_, hnone, ?_⟩
  · cases hnew : (new spec operator_def ws : Except (Exn E) (C10OperatorWrapper spec T K)) with
    | error e => exact ⟨e, rfl⟩
    | ok a => exact absurd hnew (hnone a)
  · intro hbefore
    exact ((construction_fails_iff_parse_fails spec operator_def ws).2.2.1 _).2
      ⟨i, _, hdecl, hparse, hbefore⟩

/-- C5 at the parameter `alpha` declared with no default and a definition without arguments:
the constructor throws the configuration error for `alpha`. -/
theorem C5_missing_parameter_fails_construction_witness :
    (new Examples.scale_spec ⟨"scale", "Scale", []⟩ ⟨[], ["C"]⟩
      : Except (Exn Nat) (C10OperatorWrapper Examples.scale_spec String Nat))
      = .error (.enforce "alpha") :=
  (C5_missing_parameter_fails_construction Examples.scale_spec ⟨"scale", "Scale", []⟩
    ⟨[], ["C"]⟩ 0 .float "alpha" rfl (fun _ ha => nomatch ha)).2.2.2
    (fun j _ hj => absurd hj (Nat.not_lt_zero j))

/-! ## One invocation -/

theorem RunOnDevice_push_error (self : C10OperatorWrapper spec T K) (D : Dispatcher T K E σ)
    (w : σ) (e : Exn E) (hp : self.push = .error e) :
    self.RunOnDevice D w = ⟨self, w, [], .error e⟩ := by
  simp only [RunOnDevice, RunOnDevice_, hp]

theorem RunOnDevice_lookup_error (self : C10OperatorWrapper spec T K) (D : Dispatcher T K E σ)
    (w : σ) (stack : Stack T) (e : Exn E) (hp : self.push = .ok stack)
    (hk : self.kernel_ = none) (hl : D.lookup w stack = .error e) :
    self.RunOnDevice D w = ⟨self, w, [.lookup stack], .error e⟩ := by
  simp only [RunOnDevice, RunOnDevice_, hp, call_, hk, hl]

theorem RunOnDevice_resolved (self : C10OperatorWrapper spec T K) (D : Dispatcher T K E σ)
    (w : σ) (stack : Stack T) (k : K) (hp : self.push = .ok stack)
    (hk : self.kernel_ = none) (hl : D.lookup w stack = .ok k) :
    self.RunOnDevice D w = ⟨{ self with kernel_ := some k }, (D.call w k stack).1,
      [.lookup stack, .call k stack],
      match (D.call w k stack).2 with
      | .error e => .error e
      | .ok _ => .ok true⟩ := by
  simp only [RunOnDevice, RunOnDevice_, hp, call_, hk, hl, kernel_call]
  cases (D.call w k stack).2 <;> rfl

theorem RunOnDevice_cached (self : C10OperatorWrapper spec T K) (D : Dispatcher T K E σ)
    (w : σ) (stack : Stack T) (k : K) (hp : self.push = .ok stack)
    (hk : self.kernel_ = some k) :
    self.RunOnDevice D w = ⟨self, (D.call w k stack).1, [.call k stack],
      match (D.call w k stack).2 with
      | .error e => .error e
      | .ok _ => .ok true⟩ := by
  simp only [RunOnDevice, RunOnDevice_, hp, call_, hk, kernel_call]
  cases (D.call w k stack).2 <;> rfl

/-- Is `k` the kernel `call_` uses on `stack`: the cached one, or the one looked up when none is
cached. -/
theorem RunOnDevice_called (self : C10OperatorWrapper spec T K) (D : Dispatcher T K E σ)
    (w : σ) (stack : Stack T) (k : K) (hp : self.push = .ok stack)
    (hk : self.kernel_ = some k ∨ (self.kernel_ = none ∧ D.lookup w stack = .ok k)) :
    (self.RunOnDevice D w).self.kernel_ = some k ∧
    (self.RunOnDevice D w).calls.filter Event.isCall = [.call k stack] ∧
    (self.RunOnDevice D w).result = (match (D.call w k stack).2 with
      | .error e => .error e
      | .ok _ => .ok true) := by
  rcases hk with hk | ⟨hk, hl⟩
  · rw [RunOnDevice_cached self D w stack k hp hk]
    exact ⟨hk, rfl, rfl⟩
  · rw [RunOnDevice_resolved self D w stack k hp hk hl]
    exact ⟨rfl, rfl, rfl⟩


/-- The result of one invocation: never `false`, and `true` exactly when the stack is built, a
kernel is cached or found, and the kernel call returns, whatever the stack holds and whatever
the kernel leaves on it. -/
theorem RunOnDevice_result (self : C10OperatorWrapper spec T K)
    (D : Dispatcher T K E σ) (w : σ) :
    (self.RunOnDevice D w).result ≠ .ok false ∧
    ((self.RunOnDevice D w).result = .ok true ↔
      ∃ (stack : Stack T) (k : K) (left : Stack T), self.push = .ok stack ∧
        (self.kernel_ = some k ∨ (self.kernel_ = none ∧ D.lookup w stack = .ok k)) ∧
        (D.call w k stack).2 = .ok left) := by
  cases hp : self.push with
  | error e =>
    rw [RunOnDevice_push_error self D w e hp]
    refine ⟨(fun h => nomatch h), (fun h => nomatch h), ?_⟩
    rintro ⟨stack, k, left, h, -⟩
    cases h
  | ok stack =>
    cases hk : self.kernel_ with
    | none =>
      cases hl : D.lookup w stack with
      | error e =>
        rw [RunOnDevice_lookup_error self D w stack e hp hk hl]
        refine ⟨(fun h => nomatch h), (fun h => nomatch h), ?_⟩
        rintro ⟨stack1, k, left, h, hres, -⟩
        cases h
        rcases hres with h1 | ⟨-, h1⟩
        · cases h1
        · rw [hl] at h1
          cases h1
      | ok k =>
        rw [RunOnDevice_resolved self D w stack k hp hk hl]
        cases hc : (D.call w k stack).2 with
        | error e =>
          refine ⟨(fun h => nomatch h), (fun h => nomatch h), ?_⟩
          rintro ⟨stack1, k1, left, h, hres, hcall⟩
          cases h
          rcases hres with h1 | ⟨-, h1⟩
          · cases h1
          · rw [hl] at h1
            cases h1
            rw [hc] at hcall
            cases hcall
        | ok left =>
          exact ⟨(fun h => nomatch h), fun _ => ⟨stack, k, left, rfl, Or.inr ⟨rfl, hl⟩, hc⟩,
            fun _ => rfl⟩
    | some k =>
      rw [RunOnDevice_cached self D w stack k hp hk]
      cases hc : (D.call w k stack).2 with
      | error e =>
        refine ⟨(fun h => nomatch h), (fun h => nomatch h), ?_⟩
        rintro ⟨stack1, k1, left, h, hres, hcall⟩
        cases h
        rcases hres with h1 | ⟨h1, -⟩
        · cases h1
          rw [hc] at hcall
          cases hcall
        · cases h1
      | ok left =>
        exact ⟨(fun h => nomatch h), fun _ => ⟨stack, k, left, rfl, Or.inl rfl, hc⟩,
          fun _ => rfl⟩

/-- C6. `RunOnDevice` reports success unconditionally: in both invocation modes the only value
it returns is `true`, never `false`, whatever the inputs, the parameters and the stack are and
whatever the kernel leaves on the stack; and it does return `true` whenever the stack is built,
a kernel is cached or found and the kernel call returns.  (An exception of a collaborator
leaves `RunOnDevice` without a value, see C8.) -/
theorem C6_reports_success (self : C10OperatorWrapper spec T K)
    (D : Dispatcher T K E σ) (w : σ) :
    (∀ b : Bool, (self.RunOnDevice D w).result = .ok b → b = true) ∧
    (self.RunOnDevice D w).result ≠ .ok false ∧
    ((self.RunOnDevice D w).result = .ok true ↔
      ∃ (stack : Stack T) (k : K) (left : Stack T), self.push = .ok stack ∧
        (self.kernel_ = some k ∨ (self.kernel_ = none ∧ D.lookup w stack = .ok k)) ∧
        (D.call w k stack).2 = .ok left) := by
  have h := RunOnDevice_result self D w
  refine ⟨?_, h.1, h.2⟩
  intro b hb
  cases b with
  | true => rfl
  | false => exact absurd hb h.1

/-- C6 at a wrapper with its slots bound and a dispatcher that finds a kernel: `true`. -/
theorem C6_reports_success_witness :
    (Examples.add_op.RunOnDevice Examples.by_size ()).result = .ok true :=
  (C6_reports_success Examples.add_op Examples.by_size ()).2.2.2
    ⟨[.tensor "A", .tensor "B", .tensor "C"], 3, [.tensor "A", .tensor "B", .tensor "C"],
      rfl, Or.inr ⟨rfl, rfl⟩, rfl⟩

/-- C8. Execution-time failures surface unchanged.  If the lookup in `call_` throws `e`,
`RunOnDevice` throws `e` after that one lookup, without calling a kernel and leaving the
wrapper as it was.  If a kernel is cached or found and its call throws `e`, `RunOnDevice`
throws `e` after that one call.  In neither case is a value returned. -/
theorem C8_failures_surface_unchanged (self : C10OperatorWrapper spec T K)
    (D : Dispatcher T K E σ) (w : σ) (stack : Stack T) (e : Exn E)
    (hp : self.push = .ok stack) :
    (self.kernel_ = none → D.lookup w stack = .error e →
      (self.RunOnDevice D w).result = .error e ∧
      (self.RunOnDevice D w).calls = [.lookup stack] ∧
      (self.RunOnDevice D w).self = self ∧
      ∀ b : Bool, (self.RunOnDevice D w).result ≠ .ok b) ∧
    (∀ k : K, (self.kernel_ = some k ∨ (self.kernel_ = none ∧ D.lookup w stack = .ok k)) →
      (D.call w k stack).2 = .error e →
      (self.RunOnDevice D w).result = .error e ∧
      (self.RunOnDevice D w).calls.filter Event.isCall = [.call k stack] ∧
      (self.RunOnDevice D w).calls.countP Event.isLookup ≤ 1 ∧
      ∀ b : Bool, (self.RunOnDevice D w).result ≠ .ok b) := by
  constructor
  · intro hk hl
    rw [RunOnDevice_lookup_error self D w stack e hp hk hl]
    exact ⟨rfl, rfl, rfl, (fun _ h => nomatch h)⟩
  · intro k hk hc
    obtain ⟨-, hcalls, hres⟩ := RunOnDevice_called self D w stack k hp hk
    rw [hc] at hres
    refine ⟨hres, hcalls, ?_, ?_⟩
    · rcases hk with hk | ⟨hk, hl⟩
      · rw [RunOnDevice_cached self D w stack k hp hk]
        simp [List.countP_cons, Event.isLookup]
      · rw [RunOnDevice_resolved self D w stack k hp hk hl]
        simp [List.countP_cons, Event.isLookup]
    · intro b h
      rw [hres] at h
      cases h

/-- C8 at a dispatcher that finds no kernel, and at one whose kernels throw. -/
theorem C8_failures_surface_unchanged_witness :
    (Examples.add_op.RunOnDevice Examples.no_kernel ()).result = .error (.thrown 7) ∧
    (Examples.add_op.RunOnDevice Examples.no_kernel ()).calls
      = [.lookup [.tensor "A", .tensor "B", .tensor "C"]] ∧
    (Examples.add_op.RunOnDevice Examples.failing_kernel ()).result = .error (.thrown 9) ∧
    (Examples.add_op.RunOnDevice Examples.failing_kernel ()).calls.filter Event.isCall
      = [.call 3 [.tensor "A", .tensor "B", .tensor "C"]] :=
  have h1 := (C8_failures_surface_unchanged Examples.add_op Examples.no_kernel ()
    [.tensor "A", .tensor "B", .tensor "C"] (.thrown 7) rfl).1 rfl rfl
  have h2 := (C8_failures_surface_unchanged Examples.add_op Examples.failing_kernel ()
    [.tensor "A", .tensor "B", .tensor "C"] (.thrown 9) rfl).2 3 (Or.inr ⟨rfl, rfl⟩) rfl
  ⟨h1.1, h1.2.1, h2.1, h2.2.1⟩


/-! ## Sequences of invocations -/

theorem RunOnDevice_frame (self : C10OperatorWrapper spec T K) (D : Dispatcher T K E σ)
    (w : σ) :
    ((self.RunOnDevice D w).self = self ∨
      ∃ k, self.kernel_ = none ∧ (self.RunOnDevice D w).self = { self with kernel_ := some k }) ∧
    ∀ ev ∈ (self.RunOnDevice D w).calls, self.push = .ok ev.stack := by
  cases hp : self.push with
  | error e =>
    rw [RunOnDevice_push_error self D w e hp]
    exact ⟨Or.inl rfl, fun ev hev => nomatch hev⟩
  | ok stack =>
    cases hk : self.kernel_ with
    | none =>
      cases hl : D.lookup w stack with
      | error e =>
        rw [RunOnDevice_lookup_error self D w stack e hp hk hl]
        refine ⟨Or.inl rfl, ?_⟩
        intro ev hev
        simp only [List.mem_singleton] at hev
        subst hev
        rfl
      | ok k =>
        rw [RunOnDevice_resolved self D w stack k hp hk hl]
        refine ⟨Or.inr ⟨k, rfl, rfl⟩, ?_⟩
        intro ev hev
        simp only [List.mem_cons, List.mem_singleton, List.not_mem_nil, or_false] at hev
        rcases hev with hev | hev <;> subst hev <;> rfl
    | some k =>
      rw [RunOnDevice_cached self D w stack k hp hk]
      refine ⟨Or.inl rfl, ?_⟩
      intro ev hev
      simp only [List.mem_singleton] at hev
      subst hev
      rfl

theorem RunOnDevice_parameters (self : C10OperatorWrapper spec T K) (D : Dispatcher T K E σ)
    (w : σ) : (self.RunOnDevice D w).self.parameters_ = self.parameters_ := by
  rcases (RunOnDevice_frame self D w).1 with h | ⟨k, -, h⟩ <;> rw [h]

theorem push_rebind_congr (a b : C10OperatorWrapper spec T K) (ws : Workspace T)
    (h : a.parameters_ = b.parameters_) : (a.rebind ws).push = (b.rebind ws).push := by
  cases a
  cases b
  simp only at h
  subst h
  rfl

/-- With a kernel cached, every later invocation keeps it, looks nothing up and calls it on
the stack of that invocation. -/
theorem invocations_cached (D : Dispatcher T K E σ) (k : K) :
    ∀ (wss : List (Workspace T)) (self : C10OperatorWrapper spec T K) (w : σ),
      self.kernel_ = some k →
      ∀ (j : Nat) (ws : Workspace T), wss[j]? = some ws →
        ∃ r, (invocations D self w wss)[j]? = some r ∧ r.self.kernel_ = some k ∧
          (∀ s, (self.rebind ws).push = .ok s → r.calls = [.call k s]) ∧
          (∀ e, (self.rebind ws).push = .error e → r.calls = [])
  | [], _, _, _, j, ws, hj => by simp at hj
  | ws1 :: wss, self, w, hk, j, ws, hj => by
    have hk1 : (self.rebind ws1).kernel_ = some k := hk
    have hself : ((self.rebind ws1).RunOnDevice D w).self = self.rebind ws1 := by
      rcases (RunOnDevice_frame (self.rebind ws1) D w).1 with h | ⟨k1, h, -⟩
      · exact h
      · rw [hk1] at h
        cases h
    cases j with
    | zero =>
      simp only [List.getElem?_cons_zero, Option.some.injEq] at hj
      subst hj
      refine ⟨(self.rebind ws1).RunOnDevice D w, by simp [invocations], ?_, ?_, ?_⟩
      · rw [hself]
        exact hk1
      · intro s hs
        rw [RunOnDevice_cached _ D w s k hs hk1]
      · intro e he
        rw [RunOnDevice_push_error _ D w e he]
    | succ j =>
      simp only [List.getElem?_cons_succ] at hj
      have hk2 : ((self.rebind ws1).RunOnDevice D w).self.kernel_ = some k := by
        rw [hself]
        exact hk1
      obtain ⟨r, hr, hrk, hok, herr⟩ := invocations_cached D k wss
        ((self.rebind ws1).RunOnDevice D w).self ((self.rebind ws1).RunOnDevice D w).world
        hk2 j ws hj
      have hpush : (((self.rebind ws1).RunOnDevice D w).self.rebind ws).push
          = (self.rebind ws).push :=
        push_rebind_congr _ _ ws (by rw [hself]; rfl)
      rw [hpush] at hok herr
      exact ⟨r, by simpa [invocations] using hr, hrk, hok, herr⟩

/-- The counts of a sequence of invocations that starts with a kernel cached and builds a
stack every time. -/
theorem invocations_cached_counts (D : Dispatcher T K E σ) (k : K) :
    ∀ (wss : List (Workspace T)) (self : C10OperatorWrapper spec T K) (w : σ),
      self.kernel_ = some k →
      (∀ ws ∈ wss, ∃ s, (self.rebind ws).push = .ok s) →
      (invocations D self w wss).length = wss.length ∧
      (allCalls (invocations D self w wss)).countP Event.isLookup = 0 ∧
      (allCalls (invocations D self w wss)).countP Event.isCall = wss.length ∧
      ∀ r ∈ invocations D self w wss, r.self.kernel_ = some k
  | [], _, _, _, _ => by
    simp [invocations, allCalls]
  | ws1 :: wss, self, w, hk, hall => by
    have hk1 : (self.rebind ws1).kernel_ = some k := hk
    obtain ⟨s, hs⟩ := hall ws1 (List.mem_cons_self _ _)
    have hrun := RunOnDevice_cached (self.rebind ws1) D w s k hs hk1
    have hk2 : ((self.rebind ws1).RunOnDevice D w).self.kernel_ = some k := by
      rw [hrun]
      exact hk1
    have hall2 : ∀ ws ∈ wss,
        ∃ s, (((self.rebind ws1).RunOnDevice D w).self.rebind ws).push = .ok s := by
      intro ws hws
      obtain ⟨s2, hs2⟩ := hall ws (List.mem_cons_of_mem _ hws)
      refine ⟨s2, ?_⟩
      rw [← hs2]
      exact push_rebind_congr _ _ ws (by rw [RunOnDevice_parameters]; rfl)
    obtain ⟨hlen, hlook, hcall, hker⟩ := invocations_cached_counts D k wss
      ((self.rebind ws1).RunOnDevice D w).self ((self.rebind ws1).RunOnDevice D w).world
      hk2 hall2
    have hcalls : ((self.rebind ws1).RunOnDevice D w).calls = [.call k s] := by rw [hrun]
    refine ⟨?_, ?_, ?_, ?_⟩
    · simp only [invocations, List.length_cons, hlen]
    · simp only [invocations, allCalls, List.countP_append, hlook, hcalls]
      rfl
    · simp only [invocations, allCalls, List.countP_append, hcall, hcalls, List.length_cons]
      simp [List.countP_cons, Event.isCall, Nat.add_comm]
    · intro r hr
      simp only [invocations, List.mem_cons] at hr
      rcases hr with hr | hr
      · rw [hr]
        exact hk2
      · exact hker r hr

/-- Whatever the sequence of invocations, the parameters stay and every stack passed to a
collaborator is the stack built at its invocation. -/
theorem invocations_frame (D : Dispatcher T K E σ) :
    ∀ (wss : List (Workspace T)) (self : C10OperatorWrapper spec T K) (w : σ),
      ∀ r ∈ invocations D self w wss,
        r.self.parameters_ = self.parameters_ ∧
        ∀ ev ∈ r.calls, ∃ ws ∈ wss, (self.rebind ws).push = .ok ev.stack
  | [], _, _, r, hr => by simp [invocations] at hr
  | ws1 :: wss, self, w, r, hr => by
    simp only [invocations, List.mem_cons] at hr
    rcases hr with hr | hr
    · subst hr
      refine ⟨by rw [RunOnDevice_parameters]; rfl, ?_⟩
      intro ev hev
      exact ⟨ws1, List.mem_cons_self _ _, (RunOnDevice_frame _ D w).2 ev hev⟩
    · obtain ⟨hp, hev⟩ := invocations_frame D wss _ _ r hr
      have hpar : ((self.rebind ws1).RunOnDevice D w).self.parameters_ = self.parameters_ := by
        rw [RunOnDevice_parameters]
        rfl
      refine ⟨hp.trans hpar, ?_⟩
      intro ev h
      obtain ⟨ws, hws, hpush⟩ := hev ev h
      refine ⟨ws, List.mem_cons_of_mem _ hws, ?_⟩
      rw [← hpush]
      exact push_rebind_congr _ _ ws hpar.symm


theorem parameter_segment_push (self : C10OperatorWrapper spec T K) (stack : Stack T)
    (hp : self.push = .ok stack) :
    parameter_segment spec stack = self.parameters_.1.map .value := by
  have hB : (self.parameters_.1.map (IValue.value (T := T))).length = num_parameters spec := by
    rw [List.length_map, self.parameters_.2]
  cases hmode : spec.use_array_input with
  | true =>
    obtain ⟨-, hs⟩ := ((array_stack_iff self hmode) stack).1 hp
    simp only [parameter_segment, hmode, if_true, hs, List.drop_succ_cons, List.drop_zero]
    exact List.take_left' hB
  | false =>
    simp only [push, hmode, push_fixed] at hp
    cases hI : expand self.Input (num_inputs spec) with
    | error e =>
      rw [hI] at hp
      cases hp
    | ok ins =>
      rw [hI] at hp
      cases hO : expand self.Output (num_outputs spec) with
      | error e =>
        rw [hO] at hp
        cases hp
      | ok outs =>
        rw [hO] at hp
        simp only [Bool.false_eq_true, if_false, Except.ok.injEq] at hp
        obtain ⟨hle, hins⟩ := (expand_slot_iff (E := E) self.inputs_ _ ins).1 hI
        have hA : (ins.map (IValue.tensor (T := T))).length = num_inputs spec := by
          rw [List.length_map, hins, List.length_take_of_le hle]
        simp only [parameter_segment, hmode, Bool.false_eq_true, if_false, ← hp]
        rw [List.append_assoc, List.drop_left' hA]
        exact List.take_left' hB

/-- C3 (as stated, refuted). With a dispatcher that finds no kernel, two invocations of a
freshly constructed wrapper perform two lookups and no kernel call, and `kernel_` is empty
after each of them. -/
theorem C3_failed_lookup_is_repeated :
    (new Examples.add_spec ⟨"add", "Add", []⟩ ⟨["A", "B"], ["C"]⟩
      : Except (Exn Nat) (C10OperatorWrapper Examples.add_spec String Nat))
      = .ok Examples.add_op ∧
    (allCalls (invocations Examples.no_kernel Examples.add_op ()
      [⟨["A", "B"], ["C"]⟩, ⟨["A", "B"], ["C"]⟩])).countP Event.isLookup = 2 ∧
    (allCalls (invocations Examples.no_kernel Examples.add_op ()
      [⟨["A", "B"], ["C"]⟩, ⟨["A", "B"], ["C"]⟩])).countP Event.isCall = 0 ∧
    (invocations Examples.no_kernel Examples.add_op ()
      [⟨["A", "B"], ["C"]⟩, ⟨["A", "B"], ["C"]⟩]).map (fun r => r.self.kernel_)
      = [none, none] :=
  ⟨rfl, by decide, by decide, by decide⟩

/-- C3 (amended). When the first invocation of a fresh wrapper builds its stack and its lookup
succeeds with `k`, and every later invocation builds its stack, `n` invocations perform exactly
one lookup, in the first invocation, and exactly `n` kernel calls, and `kernel_` holds `k` after
every one of them. -/
theorem C3_one_lookup_after_success (self : C10OperatorWrapper spec T K)
    (D : Dispatcher T K E σ) (w : σ) (ws : Workspace T) (wss : List (Workspace T))
    (stack : Stack T) (k : K) (hfresh : self.kernel_ = none)
    (hstack : (self.rebind ws).push = .ok stack) (hlookup : D.lookup w stack = .ok k)
    (hlater : ∀ ws1 ∈ wss, ∃ s, (self.rebind ws1).push = .ok s) :
    (invocations D self w (ws :: wss)).length = wss.length + 1 ∧
    (allCalls (invocations D self w (ws :: wss))).countP Event.isLookup = 1 ∧
    ((invocations D self w (ws :: wss)).head?.map
      (fun r => r.calls.countP Event.isLookup)) = some 1 ∧
    (allCalls (invocations D self w (ws :: wss))).countP Event.isCall = wss.length + 1 ∧
    ∀ r ∈ invocations D self w (ws :: wss), r.self.kernel_ = some k := by
  have hrun := RunOnDevice_resolved (self.rebind ws) D w stack k hstack hfresh hlookup
  have hk2 : ((self.rebind ws).RunOnDevice D w).self.kernel_ = some k := by rw [hrun]
  have hcalls : ((self.rebind ws).RunOnDevice D w).calls = [.lookup stack, .call k stack] := by
    rw [hrun]
  have hall2 : ∀ ws1 ∈ wss,
      ∃ s, (((self.rebind ws).RunOnDevice D w).self.rebind ws1).push = .ok s := by
    intro ws1 hws
    obtain ⟨s2, hs2⟩ := hlater ws1 hws
    refine ⟨s2, ?_⟩
    rw [← hs2]
    exact push_rebind_congr _ _ ws1 (by rw [RunOnDevice_parameters]; rfl)
  obtain ⟨hlen, hlook, hcall, hker⟩ := invocations_cached_counts D k wss
    ((self.rebind ws).RunOnDevice D w).self ((self.rebind ws).RunOnDevice D w).world hk2 hall2
  refine ⟨?_, ?_, ?_, ?_, ?_⟩
  · simp only [invocations, List.length_cons, hlen]
  · simp only [invocations, allCalls, List.countP_append, hlook, hcalls]
    rfl
  · simp only [invocations, List.head?_cons, Option.map_some', hcalls]
    rfl
  · simp only [invocations, allCalls, List.countP_append, hcall, hcalls]
    simp [List.countP_cons, Event.isCall, Nat.add_comm]
  · intro r hr
    simp only [invocations, List.mem_cons] at hr
    rcases hr with hr | hr
    · rw [hr]
      exact hk2
    · exact hker r hr

/-- C3 at three invocations with a dispatcher that finds a kernel: one lookup, three calls. -/
theorem C3_one_lookup_after_success_witness :
    (allCalls (invocations Examples.by_size Examples.add_op ()
      [⟨["A", "B"], ["C"]⟩, ⟨["B", "A"], ["C"]⟩, ⟨["A", "A"], ["C"]⟩])).countP
        Event.isLookup = 1 ∧
    (allCalls (invocations Examples.by_size Examples.add_op ()
      [⟨["A", "B"], ["C"]⟩, ⟨["B", "A"], ["C"]⟩, ⟨["A", "A"], ["C"]⟩])).countP
        Event.isCall = 3 :=
  have h := C3_one_lookup_after_success Examples.add_op Examples.by_size ()
    ⟨["A", "B"], ["C"]⟩ [⟨["B", "A"], ["C"]⟩, ⟨["A", "A"], ["C"]⟩]
    [.tensor "A", .tensor "B", .tensor "C"] 3 rfl rfl rfl
    (by
      intro ws1 hws
      simp only [List.mem_cons, List.mem_singleton, List.not_mem_nil, or_false] at hws
      rcases hws with h | h <;> subst h <;> exact ⟨_, rfl⟩)
  ⟨h.2.1, h.2.2.2.1⟩

/-- C9. The cached kernel is reused unconditionally: once the first invocation has built `s1`
and resolved `k1 = lookup(s1)`, every later invocation that builds a stack `s2` calls `k1` on
`s2` and looks nothing up, whatever `lookup(s2)` would be. -/
theorem C9_cached_kernel_reused (self : C10OperatorWrapper spec T K)
    (D : Dispatcher T K E σ) (w : σ) (ws1 : Workspace T) (wss : List (Workspace T))
    (s1 : Stack T) (k1 : K) (hfresh : self.kernel_ = none)
    (hstack : (self.rebind ws1).push = .ok s1) (hlookup : D.lookup w s1 = .ok k1) :
    (∃ r1, (invocations D self w (ws1 :: wss))[0]? = some r1 ∧
      r1.calls = [.lookup s1, .call k1 s1] ∧ r1.self.kernel_ = some k1) ∧
    ∀ (j : Nat) (ws2 : Workspace T) (s2 : Stack T), wss[j]? = some ws2 →
      (self.rebind ws2).push = .ok s2 →
      ∃ r, (invocations D self w (ws1 :: wss))[j + 1]? = some r ∧
        r.calls = [.call k1 s2] ∧ r.self.kernel_ = some k1 := by
  have hrun := RunOnDevice_resolved (self.rebind ws1) D w s1 k1 hstack hfresh hlookup
  have hk2 : ((self.rebind ws1).RunOnDevice D w).self.kernel_ = some k1 := by rw [hrun]
  constructor
  · refine ⟨(self.rebind ws1).RunOnDevice D w, by simp [invocations], ?_, hk2⟩
    rw [hrun]
  · intro j ws2 s2 hj hs2
    obtain ⟨r, hr, hrk, hok, -⟩ := invocations_cached D k1 wss
      ((self.rebind ws1).RunOnDevice D w).self ((self.rebind ws1).RunOnDevice D w).world
      hk2 j ws2 hj
    refine ⟨r, by simpa [invocations] using hr, hok s2 ?_, hrk⟩
    rw [← hs2]
    exact push_rebind_congr _ _ ws2 (by rw [RunOnDevice_parameters]; rfl)

/-- C9 in variadic mode: the first run has one input and resolves kernel `1`; the second run
has two inputs, for which the lookup would give kernel `2`, and calls kernel `1`. -/
theorem C9_cached_kernel_reused_witness :
    Examples.by_size.lookup () [.tensorList ["A", "B"], .tensor "C"] = .ok 2 ∧
    ∃ r, (invocations Examples.by_size (Examples.concat_op ⟨[], []⟩) ()
        [⟨["A"], ["C"]⟩, ⟨["A", "B"], ["C"]⟩])[1]? = some r ∧
      r.calls = [.call 1 [.tensorList ["A", "B"], .tensor "C"]] ∧
      r.self.kernel_ = some 1 :=
  ⟨rfl, (C9_cached_kernel_reused (Examples.concat_op ⟨[], []⟩) Examples.by_size ()
    ⟨["A"], ["C"]⟩ [⟨["A", "B"], ["C"]⟩] [.tensorList ["A"], .tensor "C"] 1 rfl rfl rfl).2
    0 ⟨["A", "B"], ["C"]⟩ [.tensorList ["A", "B"], .tensor "C"] rfl rfl⟩

/-- C10. The parameter set is parsed once, in the constructor, and never changes:
`RunOnDevice` changes no field of the wrapper but `kernel_`, so after any sequence of
invocations `parameters_` is what `parse_parameters_` computed, and the parameter segment of
every stack passed to the dispatcher or to a kernel is that same parameter set. -/
theorem C10_parameters_fixed (operator_def : OperatorDef) (ws0 : Workspace T)
    (a : C10OperatorWrapper spec T K) (hnew : new spec operator_def ws0 = .ok a)
    (D : Dispatcher T K E σ) (w : σ) (wss : List (Workspace T)) :
    parse_parameters_ operator_def spec.ParameterDefTuple = .ok a.parameters_ ∧
    (∀ (b : C10OperatorWrapper spec T K) (w1 : σ),
      (b.RunOnDevice D w1).self = b ∨
      ∃ k, b.kernel_ = none ∧ (b.RunOnDevice D w1).self = { b with kernel_ := some k }) ∧
    ∀ r ∈ invocations D a w wss,
      r.self.parameters_ = a.parameters_ ∧
      ∀ ev ∈ r.calls, parameter_segment spec ev.stack = a.parameters_.1.map .value := by
  refine ⟨((new_ok_iff spec operator_def ws0 a).1 hnew).1,
    fun b w1 => (RunOnDevice_frame b D w1).1, ?_⟩
  intro r hr
  obtain ⟨hp, hev⟩ := invocations_frame D wss a w r hr
  refine ⟨hp, ?_⟩
  intro ev h
  obtain ⟨ws, -, hpush⟩ := hev ev h
  exact parameter_segment_push (a.rebind ws) ev.stack hpush

/-- C10 at a wrapper for `fill_spec` run twice: after the first run the parameter set is still
the default of `alpha`, and it is the parameter segment of the stack passed to the lookup. -/
theorem C10_parameters_fixed_witness :
    ((Examples.fill_op.rebind ⟨[], ["C"]⟩).RunOnDevice Examples.by_size ()).self.parameters_.1
      = [.float 0x3F800000] ∧
    ((Examples.fill_op.rebind ⟨[], ["C"]⟩).RunOnDevice Examples.by_size ()).calls
      = [.lookup [.value (.float 0x3F800000), .tensor "C"],
        .call 2 [.value (.float 0x3F800000), .tensor "C"]] ∧
    parameter_segment Examples.fill_spec
      ([.value (.float 0x3F800000), .tensor "C"] : Stack String)
      = [.value (.float 0x3F800000)] :=
  have h := (C10_parameters_fixed ⟨"fill", "Fill", []⟩ ⟨[], ["C"]⟩ Examples.fill_op rfl
    Examples.by_size () [⟨[], ["C"]⟩, ⟨[], ["D"]⟩]).2.2
    ((Examples.fill_op.rebind ⟨[], ["C"]⟩).RunOnDevice Examples.by_size ())
    (List.mem_cons_self _ _)
  ⟨congrArg Subtype.val h.1, rfl,
    h.2 (.lookup [.value (.float 0x3F800000), .tensor "C"]) (List.mem_cons_self _ _)⟩

end C10OperatorWrapper

end caffe2
